import Mathlib

/-!
Shallow embedding of the go-saga core (saga.go and coordinator.go): the saga
lifecycle state machine, its durable append-only log, abort with reverse
compensation and retry, and the execution coordinator.

Modelling choices:
* Durable storage is a function from keys to lists of entries, together with a
  fault oracle deciding which storage operations fail; Go panics are modelled
  as `Except.error`.
* User actions and compensations are arbitrary functions supplied in the
  sub-transaction definitions; a compensation may answer differently on each
  attempt (its last argument is the attempt index), modelling stateful user
  code.  Every invocation of user code is recorded in a trace.
* The reflection-driven parameter registry is abstracted into a pair of
  encode/decode functions carried by the coordinator.
* The wall-clock Time field of log records is never read by any control flow
  in the source and is omitted.
-/

namespace GoSaga

/-- Modelled from the spec: the log record type enum of section 3 (the log
codec source file is not under src; the enum names are used throughout
saga.go). -/
inductive LogType where
  | sagaStart
  | sagaEnd
  | sagaAbort
  | actionStart
  | actionEnd
  | compensateStart
  | compensateEnd
deriving DecidableEq, Repr

/-- Modelled from the spec: a log record of section 3, as constructed at every
AppendLog call site in saga.go.  Fields left out of a Go literal take their
zero value, hence the defaults. -/
structure Log where
  type : LogType
  subTxID : String := ""
  params : List (String × String) := []
deriving DecidableEq, Repr

/-- A storage payload: either a marshalled log record (`log.mustMarshal` with
`mustUnmarshalLog` assumed a round trip) or a raw string, as appended to the
compensate-failures index in Saga.Abort. -/
inductive Entry where
  | log (l : Log)
  | raw (s : String)
deriving DecidableEq, Repr

/-- Go context values: `context.Background()` or some other caller-supplied
context. -/
inductive Ctx where
  | background
  | other (n : Nat)
deriving DecidableEq, Repr

abbrev GoError := String

/-- A storage operation, identified for the fault oracle. -/
inductive StorageOp where
  | append (key : String) (payload : Entry)
  | lookup (key : String)
  | cleanup (key : String)

inductive InvKind where
  | action
  | compensation
deriving DecidableEq, Repr

/-- One invocation of user code (an action or one compensation attempt), as
observed by the model. -/
structure Invocation (V : Type) where
  kind : InvKind
  subTxID : String
  ctx : Ctx
  args : List V
  attempt : Nat
deriving DecidableEq, Repr

/-- The world outside a saga: durable store contents, the storage fault
oracle, and the trace of user-code invocations. -/
@[ext]
structure World (V : Type) where
  store : String → List Entry
  faults : StorageOp → Bool
  trace : List (Invocation V)

variable {V : Type}

/-- The pure effect of a successful AppendLog on the store. -/
def World.appendEntry (w : World V) (key : String) (p : Entry) : World V :=
  { w with store := fun k => if k = key then w.store k ++ [p] else w.store k }

/-- Storage.AppendLog: append the payload at the tail of the sequence under
the key, or fail when the fault oracle says so. -/
def World.appendLog (w : World V) (key : String) (p : Entry) :
    Except GoError (World V) :=
  if w.faults (.append key p) then .error "storage error"
  else .ok (w.appendEntry key p)

/-- Storage.Lookup: all payloads under the key, in append order. -/
def World.lookup (w : World V) (key : String) : Except GoError (List Entry) :=
  if w.faults (.lookup key) then .error "storage error" else .ok (w.store key)

/-- Storage.Cleanup: remove the sequence under the key wholesale. -/
def World.cleanup (w : World V) (key : String) : Except GoError (World V) :=
  if w.faults (.cleanup key) then .error "storage error"
  else .ok { w with store := fun k => if k = key then [] else w.store k }

/-- Record one invocation of user code in the trace. -/
def World.invoke (w : World V) (inv : Invocation V) : World V :=
  { w with trace := w.trace ++ [inv] }

/-- A sub-transaction definition: the user action and its compensation.  The
result is the returned Go error (`none` is nil).  The compensation takes the
attempt index as an extra argument so that user code may behave differently
across the retry loop. -/
structure subTxDefinition (V : Type) where
  action : Ctx → List V → Option GoError
  compensate : Ctx → List V → Nat → Option GoError

/-- ExecutionCoordinator (coordinator.go): the sub-transaction registry, the
parameter registry abstracted to an encode/decode pair, and the configured log
prefix. -/
structure ExecutionCoordinator (V : Type) where
  subTxDefinitions : String → Option (subTxDefinition V)
  marshalParam : List V → List (String × String)
  unmarshalParam : List (String × String) → List V
  logPrefix : String

/-- The package constant `LogPrefix = "saga"` of saga.go. -/
def LogPrefix : String := "saga"

/-- NewSEC (coordinator.go): empty registries, the given storage (implicit in
the world) and the given log prefix. -/
def NewSEC (V : Type) (marshalParam : List V → List (String × String))
    (unmarshalParam : List (String × String) → List V) (logPrefix : String) :
    ExecutionCoordinator V :=
  { subTxDefinitions := fun _ => none
    marshalParam := marshalParam
    unmarshalParam := unmarshalParam
    logPrefix := logPrefix }

/-- AddSubTxDef (coordinator.go): register a definition under the id (a map
write, later registration wins). -/
def ExecutionCoordinator.AddSubTxDef (e : ExecutionCoordinator V)
    (subTxID : String) (d : subTxDefinition V) : ExecutionCoordinator V :=
  { e with subTxDefinitions := fun x =>
      if x = subTxID then some d else e.subTxDefinitions x }

/-- Saga (saga.go): the per-transaction state.  The mutex only guards field
access in the source and has no observable effect in this sequential model. -/
structure Saga (V : Type) where
  id : String
  logID : String
  context : Ctx
  sec : ExecutionCoordinator V
  err : Option GoError := none
  abort : Bool := false
  compensateFail : Bool := false

/-- Saga.startSaga: append the SagaStart record; a storage error panics. -/
def Saga.startSaga (s : Saga V) (w : World V) : Except String (World V) :=
  match w.appendLog s.logID (.log { type := .sagaStart }) with
  | .error e => .error ("startSaga AppendLog: " ++ e)
  | .ok w1 => .ok w1

/-- ExecutionCoordinator.StartSaga (coordinator.go): build the saga with
`logID = LogPrefix + id` (the package constant, not the configured
`e.logPrefix`) and write SagaStart before returning. -/
def ExecutionCoordinator.StartSaga (e : ExecutionCoordinator V) (ctx : Ctx)
    (id : String) (w : World V) : Except String (Saga V × World V) :=
  let s : Saga V := { id := id, logID := LogPrefix ++ id, context := ctx, sec := e }
  match s.startSaga w with
  | .error m => .error m
  | .ok w1 => .ok (s, w1)

/-- The retry loop of Saga.compensate: up to the remaining fuel more attempts,
starting at attempt index `i`, `lastErr` the error of the previous attempt.
Returns the Go error Saga.compensate returns (`none` on success) and the world
after the attempts. -/
def compensateCalls (d : subTxDefinition V) (subTxID : String) (args : List V) :
    Nat → Nat → Option GoError → World V → Option GoError × World V
  | 0, _, lastErr, w =>
    (some ("max try compensate: " ++ lastErr.getD "nil"), w)
  | Nat.succ n, i, _lastErr, w =>
    let w1 := w.invoke
      { kind := .compensation, subTxID := subTxID, ctx := Ctx.background,
        args := args, attempt := i }
    match d.compensate Ctx.background args i with
    | none => (none, w1)
    | some e => compensateCalls d subTxID args n (i + 1) (some e) w1

/-- The constant maxTry = 10 of Saga.compensate. -/
def maxTry : Nat := 10

/-- Saga.compensate: append CompensateStart, decode the params of the given
ActionEnd record, look up the definition, call the compensation with a fresh
background context up to maxTry times, and append CompensateEnd only after a
successful attempt; exhausted retries return a wrapping error.  Storage errors
panic; an unknown subTxID panics (MustFindSubTxDef). -/
def Saga.compensate (s : Saga V) (tlog : Log) (w : World V) :
    Except String (Option GoError × World V) :=
  match w.appendLog s.logID (.log { type := .compensateStart, subTxID := tlog.subTxID }) with
  | .error e => .error ("compensate AppendLog: " ++ e)
  | .ok w1 =>
    let args := s.sec.unmarshalParam tlog.params
    match s.sec.subTxDefinitions tlog.subTxID with
    | none => .error ("SubTxID: " ++ tlog.subTxID ++ " not found in context")
    | some subDef =>
      match compensateCalls subDef tlog.subTxID args maxTry 0 none w1 with
      | (some cerr, w2) => .ok (some cerr, w2)
      | (none, w2) =>
        match w2.appendLog s.logID (.log { type := .compensateEnd, subTxID := tlog.subTxID }) with
        | .error e => .error ("compensate AppendLog: " ++ e)
        | .ok w3 => .ok (none, w3)

/-- The reverse scan of Saga.Abort over the snapshot: every entry is
unmarshalled (a raw entry panics); each ActionEnd record is compensated; on a
compensation error the saga latches compensateFail, appends its logID to the
failures index with the storage error ignored, and returns at once, leaving
the remaining entries untouched. -/
def Saga.abortScan (s : Saga V) (entries : List Entry) (w : World V) :
    Except String (Saga V × World V) :=
  match entries with
  | [] => .ok (s, w)
  | .raw _ :: _ => .error "mustUnmarshalLog: invalid log data"
  | .log l :: rest =>
    if l.type = .actionEnd then
      match s.compensate l w with
      | .error m => .error m
      | .ok (some _, w1) =>
        let s1 := { s with compensateFail := true }
        match w1.appendLog "sagacompensate_failures" (.raw s.logID) with
        | .ok w2 => .ok (s1, w2)
        | .error _ => .ok (s1, w1)
      | .ok (none, w1) => s.abortScan rest w1
    else s.abortScan rest w

/-- Saga.Abort: set the aborted flag, read the whole log as a snapshot, append
SagaAbort, then run the reverse compensation scan.  Lookup and AppendLog
errors panic. -/
def Saga.Abort (s : Saga V) (w : World V) : Except String (Saga V × World V) :=
  let s1 := { s with abort := true }
  match w.lookup s1.logID with
  | .error e => .error ("Abort Lookup: " ++ e)
  | .ok logs =>
    match w.appendLog s1.logID (.log { type := .sagaAbort }) with
    | .error e => .error ("Abort AppendLog: " ++ e)
    | .ok w1 => s1.abortScan logs.reverse w1

/-- Saga.ExecSub: a no-op once aborted; otherwise append ActionStart (without
params), invoke the action with the saga's caller context, on an action error
record it into the saga and run Abort, on success append ActionEnd carrying
the marshalled args.  Storage errors and an unknown subTxID panic. -/
def Saga.ExecSub (s : Saga V) (subTxID : String) (args : List V) (w : World V) :
    Except String (Saga V × World V) :=
  if s.abort then .ok (s, w)
  else
    match s.sec.subTxDefinitions subTxID with
    | none => .error ("SubTxID: " ++ subTxID ++ " not found in context")
    | some subTxDef =>
      match w.appendLog s.logID (.log { type := .actionStart, subTxID := subTxID }) with
      | .error e => .error ("ExecSub AppendLog: " ++ e)
      | .ok w1 =>
        let w2 := w1.invoke
          { kind := .action, subTxID := subTxID, ctx := s.context,
            args := args, attempt := 0 }
        match subTxDef.action s.context args with
        | some actErr =>
          let s1 := { s with err := some actErr }
          s1.Abort w2
        | none =>
          match w2.appendLog s.logID
              (.log { type := .actionEnd, subTxID := subTxID,
                      params := s.sec.marshalParam args }) with
          | .error e => .error ("ExecSub AppendLog: " ++ e)
          | .ok w3 => .ok (s, w3)

/-- Saga.EndSaga: append SagaEnd; when compensateFail is latched return the
saga's error with the log kept, otherwise Cleanup the log and return the
saga's error.  Storage errors panic. -/
def Saga.EndSaga (s : Saga V) (w : World V) :
    Except String (Option GoError × World V) :=
  match w.appendLog s.logID (.log { type := .sagaEnd }) with
  | .error e => .error ("EndSaga AppendLog: " ++ e)
  | .ok w1 =>
    if s.compensateFail then .ok (s.err, w1)
    else
      match w1.cleanup s.logID with
      | .error e => .error ("EndSaga Cleanup: " ++ e)
      | .ok w2 => .ok (s.err, w2)

/-- The ActionEnd records of a list of entries, in order. -/
def actionEnds (entries : List Entry) : List Log :=
  entries.filterMap fun e =>
    match e with
    | .log l => if l.type = .actionEnd then some l else none
    | .raw _ => none

/-- The pair of records a successful compensation of an ActionEnd record
appends to the saga's log. -/
def compRecords (l : Log) : List Entry :=
  [.log { type := .compensateStart, subTxID := l.subTxID },
   .log { type := .compensateEnd, subTxID := l.subTxID }]

/-- The invocation a first-attempt-successful compensation of an ActionEnd
record adds to the trace. -/
def compInv (sec : ExecutionCoordinator V) (l : Log) : Invocation V :=
  { kind := .compensation, subTxID := l.subTxID, ctx := Ctx.background,
    args := sec.unmarshalParam l.params, attempt := 0 }

/-- Params live on ActionEnd only: every other record in the list carries no
params. -/
def paramsOnlyOnActionEnd (entries : List Entry) : Prop :=
  ∀ l : Log, Entry.log l ∈ entries → l.type ≠ .actionEnd → l.params = []

/-- The trace of compensation attempts, `n` of them starting at attempt
index `i`. -/
def attemptTrace (t : String) (args : List V) : Nat → Nat → List (Invocation V)
  | 0, _ => []
  | Nat.succ n, i =>
    { kind := .compensation, subTxID := t, ctx := Ctx.background,
      args := args, attempt := i } :: attemptTrace t args n (i + 1)

section Fixtures

/-- Tag-the-string codec standing in for the reflection-driven param
registry in concrete runs. -/
def idMarshal : List String → List (String × String) :=
  fun args => args.map fun a => ("string", a)

def idUnmarshal : List (String × String) → List String :=
  fun ps => ps.map fun p => p.2

/-- A sub-transaction whose action and compensation always succeed. -/
def outDef : subTxDefinition String :=
  { action := fun _ _ => none, compensate := fun _ _ _ => none }

/-- A sub-transaction whose action succeeds and whose compensation fails with
"boom" on every attempt. -/
def badCompDef : subTxDefinition String :=
  { action := fun _ _ => none, compensate := fun _ _ _ => some "boom" }

/-- A sub-transaction whose action always fails with "E". -/
def failActionDef : subTxDefinition String :=
  { action := fun _ _ => some "E", compensate := fun _ _ _ => none }

/-- A coordinator configured with log prefix "custom_": "out" always
compensable, "in" failing. -/
def testSEC : ExecutionCoordinator String :=
  ((NewSEC String idMarshal idUnmarshal "custom_").AddSubTxDef "out"
    outDef).AddSubTxDef "in" failActionDef

/-- As testSEC but the compensation of "out" never succeeds. -/
def badSEC : ExecutionCoordinator String :=
  ((NewSEC String idMarshal idUnmarshal "custom_").AddSubTxDef "out"
    badCompDef).AddSubTxDef "in" failActionDef

/-- A fault-free world over an empty store. -/
def W0 : World String :=
  { store := fun _ => [], faults := fun _ => false, trace := [] }

/-- Scenario: "out" succeeds, "in" fails with "E", and the compensation of
"out" exhausts its retries. -/
def C1run : Except String (Saga String × World String) :=
  match badSEC.StartSaga (Ctx.other 1) "tx-1" W0 with
  | .error e => .error e
  | .ok (s, w) =>
    match s.ExecSub "out" ["A"] w with
    | .error e => .error e
    | .ok (s2, w2) => s2.ExecSub "in" ["B"] w2

def C1endResult : Except String (Option GoError × World String) :=
  match C1run with
  | .error e => .error e
  | .ok (s, w) => s.EndSaga w

def C1returnedErr : Option GoError :=
  match C1endResult with
  | .ok (r, _) => r
  | .error _ => some "PANICKED"

def C1finalLog : List Entry :=
  match C1endResult with
  | .ok (_, w) => w.store "sagatx-1"
  | .error _ => []

def C1failures : List Entry :=
  match C1endResult with
  | .ok (_, w) => w.store "sagacompensate_failures"
  | .error _ => []

def C1latch : Bool :=
  match C1run with
  | .ok (s, _) => s.compensateFail
  | .error _ => false

/-- A saga in a compensate-failed end state, as C1run reaches it. -/
def C1saga : Saga String :=
  { id := "tx-1", logID := "sagatx-1", context := Ctx.other 1, sec := badSEC,
    err := some "E", abort := true, compensateFail := true }

/-- A saga of badSEC, used for compensation-failure runs. -/
def scanSaga : Saga String :=
  { id := "tx-2", logID := "sagatx-2", context := Ctx.other 2, sec := badSEC }

/-- An ActionEnd record for "out" with one marshalled argument. -/
def aeLog : Log :=
  { type := .actionEnd, subTxID := "out", params := [("string", "A")] }

/-- The world after an exhausted compensation of aeLog from W0. -/
def compFailW : World String :=
  match scanSaga.compensate aeLog W0 with
  | .ok (_, w) => w
  | .error _ => W0

/-- The logID the coordinator hands out for id "id1". -/
def C4logID : String :=
  match (NewSEC String idMarshal idUnmarshal "custom_").StartSaga
      (Ctx.other 0) "id1" W0 with
  | .ok (s, _) => s.logID
  | .error _ => "PANICKED"

/-- A saga of testSEC about to be aborted. -/
def C3saga : Saga String :=
  { id := "tx-3", logID := "sagatx-3", context := Ctx.other 3, sec := testSEC }

def C3log : List Entry :=
  [.log { type := .sagaStart },
   .log { type := .actionStart, subTxID := "out" },
   .log { type := .actionEnd, subTxID := "out", params := [("string", "A")] },
   .log { type := .actionStart, subTxID := "in" }]

def C3W : World String :=
  { store := fun k => if k = "sagatx-3" then C3log else [],
    faults := fun _ => false, trace := [] }

/-- A saga of testSEC that already ran one full Abort. -/
def C10saga : Saga String :=
  { id := "tx-10", logID := "sagatx-10", context := Ctx.other 4, sec := testSEC,
    err := some "E", abort := true }

/-- The aeLog sub-transaction of C10's log, already compensated once. -/
def C10ae : Log :=
  { type := .actionEnd, subTxID := "out", params := [("string", "A")] }

def C10log : List Entry :=
  [.log { type := .sagaStart },
   .log { type := .actionStart, subTxID := "out" },
   .log C10ae,
   .log { type := .actionStart, subTxID := "in" },
   .log { type := .sagaAbort },
   .log { type := .compensateStart, subTxID := "out" },
   .log { type := .compensateEnd, subTxID := "out" }]

def C10W : World String :=
  { store := fun k => if k = "sagatx-10" then C10log else [],
    faults := fun _ => false, trace := [] }

/-- A fresh saga of testSEC used in forward-execution witnesses. -/
def C6saga : Saga String :=
  { id := "tx-6", logID := "sagatx-6", context := Ctx.other 6, sec := testSEC }

/-- An already-aborted saga. -/
def C7saga : Saga String :=
  { id := "tx-7", logID := "sagatx-7", context := Ctx.other 7, sec := testSEC,
    err := some "E", abort := true }

/-- A world whose storage fails every operation. -/
def allFaultW : World String :=
  { store := fun _ => [], faults := fun _ => true, trace := [] }

/-- A world whose storage fails exactly the Cleanup operations. -/
def cleanupFaultW : World String :=
  { store := fun _ => [],
    faults := fun op => match op with | .cleanup _ => true | _ => false,
    trace := [] }

/-- A world whose storage fails exactly the AppendLog operations. -/
def appendFaultW : World String :=
  { store := fun _ => [],
    faults := fun op => match op with | .append _ _ => true | _ => false,
    trace := [] }

/-- A fault oracle failing exactly the appends to the compensate-failures
index. -/
def failuresFaults : StorageOp → Bool :=
  fun op => match op with
  | .append "sagacompensate_failures" _ => true
  | _ => false

/-- A world whose storage fails exactly the appends to the failures index. -/
def failuresFaultW : World String :=
  { store := fun _ => [], faults := failuresFaults, trace := [] }

/-- The world after an exhausted compensation of aeLog from failuresFaultW. -/
def compFailWF : World String :=
  match scanSaga.compensate aeLog failuresFaultW with
  | .ok (_, w) => w
  | .error _ => W0

/-- The error an exhausted compensation of aeLog returns. -/
def compFailErrF : GoError :=
  match scanSaga.compensate aeLog failuresFaultW with
  | .ok (some e, _) => e
  | _ => ""

/-- The scenario of C1run but against storage that fails appends to the
failures index. -/
def C8run : Except String (Saga String × World String) :=
  match badSEC.StartSaga (Ctx.other 1) "tx-8" failuresFaultW with
  | .error e => .error e
  | .ok (s, w) =>
    match s.ExecSub "out" ["A"] w with
    | .error e => .error e
    | .ok (s2, w2) => s2.ExecSub "in" ["B"] w2

def C8ok : Bool :=
  match C8run with
  | .ok _ => true
  | .error _ => false

def C8latch : Bool :=
  match C8run with
  | .ok (s, _) => s.compensateFail
  | .error _ => false

def C8failures : List Entry :=
  match C8run with
  | .ok (_, w) => w.store "sagacompensate_failures"
  | .error _ => [Entry.raw "dummy"]

end Fixtures

section Lemmas

@[simp]
lemma World.appendEntry_faults (w : World V) (k : String) (p : Entry) :
    (w.appendEntry k p).faults = w.faults := rfl

@[simp]
lemma World.appendEntry_trace (w : World V) (k : String) (p : Entry) :
    (w.appendEntry k p).trace = w.trace := rfl

lemma World.appendEntry_store (w : World V) (k : String) (p : Entry) :
    (w.appendEntry k p).store =
      fun x => if x = k then w.store x ++ [p] else w.store x := rfl

@[simp]
lemma World.invoke_faults (w : World V) (inv : Invocation V) :
    (w.invoke inv).faults = w.faults := rfl

@[simp]
lemma World.invoke_store (w : World V) (inv : Invocation V) :
    (w.invoke inv).store = w.store := rfl

@[simp]
lemma World.invoke_trace (w : World V) (inv : Invocation V) :
    (w.invoke inv).trace = w.trace ++ [inv] := rfl

lemma World.appendLog_of_nofault (w : World V) (k : String) (p : Entry)
    (h : w.faults (.append k p) = false) :
    w.appendLog k p = .ok (w.appendEntry k p) := by
  simp [World.appendLog, h]

lemma compensateCalls_zero (d : subTxDefinition V) (t : String) (args : List V)
    (i : Nat) (le : Option GoError) (w : World V) :
    compensateCalls d t args 0 i le w =
      (some ("max try compensate: " ++ le.getD "nil"), w) := rfl

lemma compensateCalls_succ_ok (d : subTxDefinition V) (t : String)
    (args : List V) (n i : Nat) (le : Option GoError) (w : World V)
    (h : d.compensate Ctx.background args i = none) :
    compensateCalls d t args (n + 1) i le w =
      (none, w.invoke
        { kind := .compensation, subTxID := t, ctx := Ctx.background,
          args := args, attempt := i }) := by
  simp only [compensateCalls, h]

lemma compensateCalls_succ_fail (d : subTxDefinition V) (t : String)
    (args : List V) (n i : Nat) (le : Option GoError) (w : World V)
    (e : GoError) (h : d.compensate Ctx.background args i = some e) :
    compensateCalls d t args (n + 1) i le w =
      compensateCalls d t args n (i + 1) (some e)
        (w.invoke
          { kind := .compensation, subTxID := t, ctx := Ctx.background,
            args := args, attempt := i }) := by
  simp only [compensateCalls, h]

lemma compensateCalls_trace (d : subTxDefinition V) (t : String) (args : List V) :
    ∀ (n i : Nat) (le : Option GoError) (w : World V),
    ∃ tr : List (Invocation V),
      (compensateCalls d t args n i le w).2 = { w with trace := w.trace ++ tr } ∧
      tr.length ≤ n ∧
      ∀ inv ∈ tr, inv.kind = InvKind.compensation ∧ inv.ctx = Ctx.background ∧
        inv.subTxID = t ∧ inv.args = args := by
  intro n
  induction n with
  | zero =>
    intro i le w
    exact ⟨[], by simp [compensateCalls], by simp, by simp⟩
  | succ n ih =>
    intro i le w
    cases h : d.compensate Ctx.background args i with
    | none =>
      refine ⟨[{ kind := .compensation, subTxID := t, ctx := Ctx.background,
                 args := args, attempt := i }], ?_, by simp, by simp⟩
      simp [compensateCalls, h, World.invoke]
    | some e =>
      obtain ⟨tr, htr, hlen, hmem⟩ := ih (i + 1) (some e)
        (w.invoke { kind := .compensation, subTxID := t, ctx := Ctx.background,
                    args := args, attempt := i })
      refine ⟨{ kind := .compensation, subTxID := t, ctx := Ctx.background,
                args := args, attempt := i } :: tr, ?_, by simpa using hlen, ?_⟩
      · simp only [compensateCalls, h]
        rw [htr]
        simp [World.invoke]
      · intro inv hinv
        rcases List.mem_cons.mp hinv with rfl | hinv
        · exact ⟨rfl, rfl, rfl, rfl⟩
        · exact hmem inv hinv

lemma compensateCalls_all_fail (d : subTxDefinition V) (t : String)
    (args : List V) (errAt : Nat → GoError) :
    ∀ (n i : Nat) (le : Option GoError) (w : World V),
    0 < n →
    (∀ j, i ≤ j → j < i + n → d.compensate Ctx.background args j = some (errAt j)) →
    compensateCalls d t args n i le w =
      (some ("max try compensate: " ++ errAt (i + n - 1)),
       { w with trace := w.trace ++ attemptTrace t args n i }) := by
  intro n
  induction n with
  | zero => intro i le w h; exact absurd h (by simp)
  | succ n ih =>
    intro i le w _ hf
    have hi : d.compensate Ctx.background args i = some (errAt i) :=
      hf i le_rfl (by omega)
    rw [compensateCalls_succ_fail d t args n i le w (errAt i) hi]
    cases n with
    | zero =>
      rw [compensateCalls_zero]
      simp [attemptTrace, World.invoke]
    | succ m =>
      rw [ih (i + 1) (some (errAt i))
        (w.invoke { kind := .compensation, subTxID := t, ctx := Ctx.background,
                    args := args, attempt := i })
        (by omega) (fun j h1 h2 => hf j (by omega) (by omega))]
      have hidx : i + 1 + (m + 1) - 1 = i + (m + 1 + 1) - 1 := by omega
      rw [hidx]
      simp [attemptTrace, World.invoke]

lemma World.appendLog_ok (w : World V) (k : String) (p : Entry) (w1 : World V)
    (h : w.appendLog k p = .ok w1) : w1 = w.appendEntry k p := by
  unfold World.appendLog at h
  split at h
  · cases h
  · exact (Except.ok.inj h).symm

@[simp]
lemma actionEnds_nil : actionEnds ([] : List Entry) = [] := rfl

lemma actionEnds_cons_log (l : Log) (rest : List Entry) :
    actionEnds (Entry.log l :: rest) =
      if l.type = .actionEnd then l :: actionEnds rest else actionEnds rest := by
  by_cases h : l.type = .actionEnd <;> simp [actionEnds, h]

lemma actionEnds_reverse (entries : List Entry) :
    actionEnds entries.reverse = (actionEnds entries).reverse :=
  List.filterMap_reverse _ _

lemma compensate_ok_first_try (s : Saga V) (tlog : Log) (w : World V)
    (d : subTxDefinition V)
    (hd : s.sec.subTxDefinitions tlog.subTxID = some d)
    (hnf1 : w.faults
      (.append s.logID (.log { type := .compensateStart, subTxID := tlog.subTxID })) = false)
    (hnf2 : w.faults
      (.append s.logID (.log { type := .compensateEnd, subTxID := tlog.subTxID })) = false)
    (h0 : d.compensate Ctx.background (s.sec.unmarshalParam tlog.params) 0 = none) :
    s.compensate tlog w = .ok (none,
      { w with
        store := fun k =>
          if k = s.logID then w.store k ++ compRecords tlog else w.store k,
        trace := w.trace ++ [compInv s.sec tlog] }) := by
  have e1 := World.appendLog_of_nofault w s.logID
    (.log { type := .compensateStart, subTxID := tlog.subTxID }) hnf1
  have e2 := compensateCalls_succ_ok d tlog.subTxID (s.sec.unmarshalParam tlog.params)
    9 0 none (w.appendEntry s.logID
      (.log { type := .compensateStart, subTxID := tlog.subTxID })) h0
  have e3 := World.appendLog_of_nofault
    ((w.appendEntry s.logID
        (.log { type := .compensateStart, subTxID := tlog.subTxID })).invoke
      { kind := .compensation, subTxID := tlog.subTxID, ctx := Ctx.background,
        args := s.sec.unmarshalParam tlog.params, attempt := 0 })
    s.logID (.log { type := .compensateEnd, subTxID := tlog.subTxID })
    (by simpa using hnf2)
  simp only [Saga.compensate, e1, hd, show maxTry = 9 + 1 from rfl, e2, e3]
  refine congrArg Except.ok (Prod.ext rfl ?_)
  refine World.ext ?_ rfl ?_
  · funext k
    by_cases hk : k = s.logID <;>
      simp [World.appendEntry, World.invoke, hk, compRecords]
  · simp [World.appendEntry, World.invoke, compInv]

lemma compensate_all_fail (s : Saga V) (tlog : Log) (w : World V)
    (d : subTxDefinition V) (errAt : Nat → GoError)
    (hd : s.sec.subTxDefinitions tlog.subTxID = some d)
    (hnf1 : w.faults
      (.append s.logID (.log { type := .compensateStart, subTxID := tlog.subTxID })) = false)
    (hf : ∀ i, i < maxTry →
      d.compensate Ctx.background (s.sec.unmarshalParam tlog.params) i = some (errAt i)) :
    s.compensate tlog w = .ok (some ("max try compensate: " ++ errAt 9),
      { w with
        store := fun k =>
          if k = s.logID
          then w.store k ++ [.log { type := .compensateStart, subTxID := tlog.subTxID }]
          else w.store k,
        trace := w.trace ++
          attemptTrace tlog.subTxID (s.sec.unmarshalParam tlog.params) maxTry 0 }) := by
  have e1 := World.appendLog_of_nofault w s.logID
    (.log { type := .compensateStart, subTxID := tlog.subTxID }) hnf1
  have e2 := compensateCalls_all_fail d tlog.subTxID (s.sec.unmarshalParam tlog.params)
    errAt maxTry 0 none (w.appendEntry s.logID
      (.log { type := .compensateStart, subTxID := tlog.subTxID }))
    (by simp [maxTry]) (fun j h1 h2 => hf j (by simpa using h2))
  simp only [Saga.compensate, e1, hd, e2]
  have hidx : (0 + maxTry - 1) = 9 := by simp [maxTry]
  rw [hidx]
  refine congrArg Except.ok (Prod.ext rfl ?_)
  refine World.ext ?_ rfl ?_
  · funext k
    by_cases hk : k = s.logID <;> simp [World.appendEntry, hk]
  · simp [World.appendEntry]

lemma compensate_trace_bound (s : Saga V) (tlog : Log) (w : World V)
    (res : Option GoError) (w' : World V)
    (h : s.compensate tlog w = .ok (res, w')) :
    ∃ tr : List (Invocation V), w'.trace = w.trace ++ tr ∧ tr.length ≤ maxTry ∧
      ∀ inv ∈ tr, inv.kind = InvKind.compensation ∧ inv.ctx = Ctx.background ∧
        inv.subTxID = tlog.subTxID ∧ inv.args = s.sec.unmarshalParam tlog.params := by
  unfold Saga.compensate at h
  split at h
  · cases h
  case _ w1 he1 =>
    have hw1 : w1 = w.appendEntry s.logID
        (.log { type := .compensateStart, subTxID := tlog.subTxID }) :=
      World.appendLog_ok _ _ _ _ he1
    split at h
    · cases h
    case _ subDef hdef =>
      obtain ⟨tr, htr, hlen, hmem⟩ := compensateCalls_trace subDef tlog.subTxID
        (s.sec.unmarshalParam tlog.params) maxTry 0 none w1
      dsimp only [] at h
      rcases hc : compensateCalls subDef tlog.subTxID (s.sec.unmarshalParam tlog.params)
        maxTry 0 none w1 with ⟨resc, w2⟩
      have hw2 : w2 = { w1 with trace := w1.trace ++ tr } := by
        rw [← htr, hc]
      rw [hc] at h
      cases resc with
      | some cerr =>
        dsimp only at h
        simp only [Except.ok.injEq, Prod.mk.injEq] at h
        refine ⟨tr, ?_, hlen, hmem⟩
        rw [← h.2, hw2, hw1]
        simp [World.appendEntry]
      | none =>
        dsimp only at h
        cases ha : w2.appendLog s.logID
            (.log { type := .compensateEnd, subTxID := tlog.subTxID }) with
        | error e =>
          rw [ha] at h
          exact absurd h (by simp)
        | ok w3 =>
          rw [ha] at h
          simp only [Except.ok.injEq, Prod.mk.injEq] at h
          have hw3 : w3 = w2.appendEntry s.logID
              (.log { type := .compensateEnd, subTxID := tlog.subTxID }) :=
            World.appendLog_ok _ _ _ _ ha
          refine ⟨tr, ?_, hlen, hmem⟩
          rw [← h.2, hw3, hw2, hw1]
          simp [World.appendEntry]

lemma abortScan_all_ok (s : Saga V) :
    ∀ (entries : List Entry) (w : World V),
    (∀ op, w.faults op = false) →
    (∀ e ∈ entries, ∃ l : Log, e = Entry.log l) →
    (∀ l : Log, Entry.log l ∈ entries → l.type = .actionEnd →
      ∃ d, s.sec.subTxDefinitions l.subTxID = some d ∧
        d.compensate Ctx.background (s.sec.unmarshalParam l.params) 0 = none) →
    s.abortScan entries w = .ok (s,
      { w with
        store := fun k =>
          if k = s.logID then w.store k ++ (actionEnds entries).flatMap compRecords
          else w.store k,
        trace := w.trace ++ (actionEnds entries).map (compInv s.sec) }) := by
  intro entries
  induction entries with
  | nil =>
    intro w hnf hrec hcomp
    simp [Saga.abortScan]
  | cons e rest ih =>
    intro w hnf hrec hcomp
    obtain ⟨l, rfl⟩ := hrec e (List.mem_cons_self e rest)
    by_cases hT : l.type = .actionEnd
    · obtain ⟨d, hd, h0⟩ := hcomp l (List.mem_cons_self _ rest) hT
      have hcmp := compensate_ok_first_try s l w d hd (hnf _) (hnf _) h0
      have hrest := ih
        { w with
          store := fun k =>
            if k = s.logID then w.store k ++ compRecords l else w.store k,
          trace := w.trace ++ [compInv s.sec l] }
        (fun op => hnf op)
        (fun e he => hrec e (List.mem_cons_of_mem _ he))
        (fun l' hl' h' => hcomp l' (List.mem_cons_of_mem _ hl') h')
      simp only [Saga.abortScan, hT, if_true, hcmp, hrest]
      refine congrArg Except.ok (Prod.ext rfl ?_)
      refine World.ext ?_ rfl ?_
      · funext k
        by_cases hk : k = s.logID <;>
          simp [hk, actionEnds_cons_log, hT, List.flatMap_cons]
      · simp [actionEnds_cons_log, hT]
    · have hrest := ih w hnf
        (fun e he => hrec e (List.mem_cons_of_mem _ he))
        (fun l' hl' h' => hcomp l' (List.mem_cons_of_mem _ hl') h')
      simp only [Saga.abortScan, hT, if_false, hrest]
      refine congrArg Except.ok (Prod.ext rfl ?_)
      refine World.ext ?_ rfl ?_
      · funext k
        by_cases hk : k = s.logID <;> simp [hk, actionEnds_cons_log, hT]
      · simp [actionEnds_cons_log, hT]

lemma abort_reverse_ok (s : Saga V) (w : World V)
    (hnf : ∀ op, w.faults op = false)
    (hrec : ∀ e ∈ w.store s.logID, ∃ l : Log, e = Entry.log l)
    (hcomp : ∀ l : Log, Entry.log l ∈ w.store s.logID → l.type = .actionEnd →
      ∃ d, s.sec.subTxDefinitions l.subTxID = some d ∧
        d.compensate Ctx.background (s.sec.unmarshalParam l.params) 0 = none) :
    s.Abort w = .ok ({ s with abort := true },
      { w with
        store := fun k =>
          if k = s.logID
          then w.store k ++ Entry.log { type := .sagaAbort } ::
            (actionEnds (w.store s.logID)).reverse.flatMap compRecords
          else w.store k,
        trace := w.trace ++ (actionEnds (w.store s.logID)).reverse.map (compInv s.sec) }) := by
  have hlk : w.lookup s.logID = .ok (w.store s.logID) := by
    simp [World.lookup, hnf _]
  have hap := World.appendLog_of_nofault w s.logID
    (.log { type := .sagaAbort }) (hnf _)
  have hscan := abortScan_all_ok { s with abort := true } (w.store s.logID).reverse
    (w.appendEntry s.logID (.log { type := .sagaAbort }))
    (fun op => hnf op)
    (fun e he => hrec e (List.mem_reverse.mp he))
    (fun l hl h' => hcomp l (List.mem_reverse.mp hl) h')
  simp only [Saga.Abort, hlk, hap, hscan]
  refine congrArg Except.ok (Prod.ext rfl ?_)
  refine World.ext ?_ rfl ?_
  · funext k
    by_cases hk : k = s.logID <;>
      simp [World.appendEntry, hk, actionEnds_reverse]
  · simp [World.appendEntry, actionEnds_reverse]

lemma execSub_ok (s : Saga V) (txid : String) (args : List V) (w : World V)
    (d : subTxDefinition V)
    (habort : s.abort = false)
    (hd : s.sec.subTxDefinitions txid = some d)
    (ha : d.action s.context args = none)
    (hnf1 : w.faults
      (.append s.logID (.log { type := .actionStart, subTxID := txid })) = false)
    (hnf2 : w.faults
      (.append s.logID
        (.log { type := .actionEnd, subTxID := txid,
                params := s.sec.marshalParam args })) = false) :
    s.ExecSub txid args w = .ok (s,
      { w with
        store := fun k =>
          if k = s.logID
          then w.store k ++
            [.log { type := .actionStart, subTxID := txid },
             .log { type := .actionEnd, subTxID := txid,
                    params := s.sec.marshalParam args }]
          else w.store k,
        trace := w.trace ++
          [{ kind := .action, subTxID := txid, ctx := s.context,
             args := args, attempt := 0 }] }) := by
  have e1 := World.appendLog_of_nofault w s.logID
    (.log { type := .actionStart, subTxID := txid }) hnf1
  have e2 := World.appendLog_of_nofault
    ((w.appendEntry s.logID (.log { type := .actionStart, subTxID := txid })).invoke
      { kind := .action, subTxID := txid, ctx := s.context, args := args, attempt := 0 })
    s.logID
    (.log { type := .actionEnd, subTxID := txid, params := s.sec.marshalParam args })
    (by simpa using hnf2)
  simp only [Saga.ExecSub, habort, Bool.false_eq_true, if_false, hd, e1, e2, ha]
  refine congrArg Except.ok (Prod.ext rfl ?_)
  refine World.ext ?_ rfl ?_
  · funext k
    by_cases hk : k = s.logID <;> simp [World.appendEntry, World.invoke, hk]
  · simp [World.appendEntry, World.invoke]

end Lemmas

/-- C1 counterexample: in the run where "out" succeeds, "in" fails with "E"
and the compensation of "out" exhausts its retries, compensateFail is latched
and EndSaga returns exactly the unwrapped action error "E" (not a wrapping
error), with the full log persisting and the logID in the failures index. -/
theorem C1_counterexample :
    C1latch = true ∧
    failActionDef.action (Ctx.other 1) ["B"] = some "E" ∧
    C1returnedErr = some "E" ∧
    C1failures = [Entry.raw "sagatx-1"] ∧
    C1finalLog =
      [.log { type := .sagaStart },
       .log { type := .actionStart, subTxID := "out" },
       .log { type := .actionEnd, subTxID := "out", params := [("string", "A")] },
       .log { type := .actionStart, subTxID := "in" },
       .log { type := .sagaAbort },
       .log { type := .compensateStart, subTxID := "out" },
       .log { type := .sagaEnd }] :=
  ⟨rfl, rfl, rfl, rfl, rfl⟩

/-- C1 (amended): EndSaga first appends a SagaEnd record; if compensateFail is
latched it does not call Cleanup (the full log persists) and returns the
saga's error unwrapped (the first action error, possibly nil); otherwise it
calls Cleanup(logID) and returns the saga's error (possibly nil). -/
theorem C1_amended (s : Saga V) (w : World V)
    (hnf1 : w.faults (.append s.logID (.log { type := .sagaEnd })) = false)
    (hnf2 : w.faults (.cleanup s.logID) = false) :
    (s.compensateFail = true →
      s.EndSaga w = .ok (s.err,
        { w with store := fun k =>
            if k = s.logID then w.store k ++ [.log { type := .sagaEnd }]
            else w.store k })) ∧
    (s.compensateFail = false →
      s.EndSaga w = .ok (s.err,
        { w with store := fun k =>
            if k = s.logID then [] else w.store k })) := by
  have e1 := World.appendLog_of_nofault w s.logID (.log { type := .sagaEnd }) hnf1
  constructor
  · intro hcf
    simp only [Saga.EndSaga, e1, hcf, if_true]
    rfl
  · intro hcf
    simp only [Saga.EndSaga, e1, hcf, Bool.false_eq_true, if_false, World.cleanup,
      World.appendEntry_faults, hnf2]
    refine congrArg Except.ok (Prod.ext rfl ?_)
    refine World.ext ?_ rfl rfl
    funext k
    by_cases hk : k = s.logID <;> simp [World.appendEntry, hk]

/-- C1 witness: the amended EndSaga behaviour applied to the concrete
compensate-failed saga C1saga. -/
theorem C1_amended_witness :
    (C1saga.compensateFail = true →
      C1saga.EndSaga W0 = .ok (C1saga.err,
        { W0 with store := fun k =>
            if k = C1saga.logID then W0.store k ++ [.log { type := .sagaEnd }]
            else W0.store k })) ∧
    (C1saga.compensateFail = false →
      C1saga.EndSaga W0 = .ok (C1saga.err,
        { W0 with store := fun k =>
            if k = C1saga.logID then [] else W0.store k })) :=
  C1_amended C1saga W0 rfl rfl

/-- C2: when the compensation of an ActionEnd record of the snapshot returns
an error (after its retry budget), the abort scan latches compensateFail,
appends the saga's logID to the out-of-band failures index, and stops: the
result does not mention the remaining snapshot entries, so no compensation is
attempted for any earlier ActionEnd record. -/
theorem C2_halt_on_compensate_failure (s : Saga V) (l : Log) (rest : List Entry)
    (w w1 : World V) (cerr : GoError)
    (hT : l.type = .actionEnd)
    (hc : s.compensate l w = .ok (some cerr, w1))
    (hnf : w1.faults (.append "sagacompensate_failures" (.raw s.logID)) = false) :
    s.abortScan (Entry.log l :: rest) w =
      .ok ({ s with compensateFail := true },
        { w1 with store := fun k =>
            if k = "sagacompensate_failures" then w1.store k ++ [Entry.raw s.logID]
            else w1.store k }) := by
  have e1 := World.appendLog_of_nofault w1 "sagacompensate_failures"
    (.raw s.logID) hnf
  simp only [Saga.abortScan, hT, if_true, hc, e1]
  rfl

/-- C2 witness: a failing compensation of aeLog halts the scan at a concrete
input; the second snapshot entry is another ActionEnd that is never
compensated. -/
theorem C2_witness :
    scanSaga.abortScan (Entry.log aeLog :: [Entry.log aeLog]) W0 =
      .ok ({ scanSaga with compensateFail := true },
        { compFailW with store := fun k =>
            if k = "sagacompensate_failures"
            then compFailW.store k ++ [Entry.raw scanSaga.logID]
            else compFailW.store k }) :=
  C2_halt_on_compensate_failure scanSaga aeLog [Entry.log aeLog] W0 compFailW
    "max try compensate: boom" rfl rfl rfl

/-- C4 counterexample: a coordinator configured with logPrefix "custom_"
starts saga "id1" with logID "sagaid1" (the package constant LogPrefix
prepended), not "custom_id1" as the claim states. -/
theorem C4_counterexample :
    C4logID = "sagaid1" ∧
    (NewSEC String idMarshal idUnmarshal "custom_").logPrefix = "custom_" ∧
    C4logID ≠ (NewSEC String idMarshal idUnmarshal "custom_").logPrefix ++ "id1" := by
  decide

/-- C4 (amended): StartSaga(ctx, id) returns a Saga whose logID equals the
package constant LogPrefix ("saga") concatenated with id — the logPrefix
stored by NewSEC is not used — and a SagaStart record is appended under that
logID before StartSaga returns, as the log's first record. -/
theorem C4_amended (e : ExecutionCoordinator V) (ctx : Ctx) (id : String)
    (w : World V)
    (hnf : w.faults (.append (LogPrefix ++ id) (.log { type := .sagaStart })) = false)
    (hempty : w.store (LogPrefix ++ id) = []) :
    e.StartSaga ctx id w = .ok
      ({ id := id, logID := LogPrefix ++ id, context := ctx, sec := e },
       { w with store := fun k =>
           if k = LogPrefix ++ id then [Entry.log { type := .sagaStart }]
           else w.store k }) := by
  have e1 := World.appendLog_of_nofault w (LogPrefix ++ id)
    (.log { type := .sagaStart }) hnf
  simp only [ExecutionCoordinator.StartSaga, Saga.startSaga, e1]
  refine congrArg Except.ok (Prod.ext rfl ?_)
  refine World.ext ?_ rfl rfl
  funext k
  by_cases hk : k = LogPrefix ++ id <;> simp [World.appendEntry, hk, hempty]

/-- C4 witness: the amended StartSaga behaviour at the concrete coordinator
testSEC on the empty store. -/
theorem C4_amended_witness :
    testSEC.StartSaga (Ctx.other 0) "id1" W0 = .ok
      ({ id := "id1", logID := LogPrefix ++ "id1", context := Ctx.other 0,
         sec := testSEC },
       { W0 with store := fun k =>
           if k = LogPrefix ++ "id1" then [Entry.log { type := .sagaStart }]
           else W0.store k }) :=
  C4_amended testSEC (Ctx.other 0) "id1" W0 rfl rfl

/-- C7: once the aborted flag is set, ExecSub returns the saga unchanged with
the world unchanged: no log record is appended and the action is not
invoked. -/
theorem C7_execsub_noop_after_abort (s : Saga V) (txid : String) (args : List V)
    (w : World V) (h : s.abort = true) :
    s.ExecSub txid args w = .ok (s, w) := by
  simp [Saga.ExecSub, h]

/-- C7 witness: the no-op at the concrete aborted saga C7saga. -/
theorem C7_witness : C7saga.ExecSub "out" ["A"] W0 = .ok (C7saga, W0) :=
  C7_execsub_noop_after_abort C7saga "out" ["A"] W0 rfl

/-- C3: Abort sets the aborted flag, reads the whole log as a snapshot with
Lookup, appends a SagaAbort record, and (absent a compensateFail latch: every
compensation here succeeds) invokes the compensation exactly for the
ActionEnd records of the snapshot in strictly reverse order: the trace gains
exactly the compensation invocations of the reversed ActionEnd list, and the
log gains one CompensateStart/CompensateEnd pair per ActionEnd in that
order. -/
theorem C3_abort_reverse_compensation (s : Saga V) (w : World V)
    (hnf : ∀ op, w.faults op = false)
    (hrec : ∀ e ∈ w.store s.logID, ∃ l : Log, e = Entry.log l)
    (hcomp : ∀ l : Log, Entry.log l ∈ w.store s.logID → l.type = .actionEnd →
      ∃ d, s.sec.subTxDefinitions l.subTxID = some d ∧
        d.compensate Ctx.background (s.sec.unmarshalParam l.params) 0 = none) :
    s.Abort w = .ok ({ s with abort := true },
      { w with
        store := fun k =>
          if k = s.logID
          then w.store k ++ Entry.log { type := .sagaAbort } ::
            (actionEnds (w.store s.logID)).reverse.flatMap compRecords
          else w.store k,
        trace := w.trace ++
          (actionEnds (w.store s.logID)).reverse.map (compInv s.sec) }) :=
  abort_reverse_ok s w hnf hrec hcomp

/-- C3 witness: an abort over the concrete snapshot C3log compensates its one
ActionEnd record. -/
theorem C3_witness :
    C3saga.Abort C3W = .ok ({ C3saga with abort := true },
      { C3W with
        store := fun k =>
          if k = C3saga.logID
          then C3W.store k ++ Entry.log { type := .sagaAbort } ::
            (actionEnds (C3W.store C3saga.logID)).reverse.flatMap compRecords
          else C3W.store k,
        trace := C3W.trace ++
          (actionEnds (C3W.store C3saga.logID)).reverse.map (compInv C3saga.sec) }) :=
  C3_abort_reverse_compensation C3saga C3W (fun _ => rfl)
    (by
      intro e he
      have hst : C3W.store C3saga.logID = C3log := rfl
      rw [hst] at he
      fin_cases he <;> exact ⟨_, rfl⟩)
    (by
      intro l hl hT
      have hst : C3W.store C3saga.logID = C3log := rfl
      rw [hst] at hl
      simp only [C3log, List.mem_cons, List.not_mem_nil, or_false] at hl
      rcases hl with h | h | h | h <;> injection h with h2 <;> subst h2 <;>
        first
        | exact absurd hT (by decide)
        | exact ⟨outDef, rfl, rfl⟩)

/-- C10: Abort is not idempotent: with the aborted flag already set, a call
to Abort still appends a new SagaAbort record and re-runs the compensation
for every ActionEnd record of the snapshot it reads — including the
sub-transaction l0 whose CompensateEnd record is already in the log, whose
compensation invocation appears again in the new trace suffix. -/
theorem C10_abort_not_idempotent (s : Saga V) (w : World V) (l0 : Log)
    (habort : s.abort = true)
    (hl0 : Entry.log l0 ∈ w.store s.logID)
    (hl0T : l0.type = .actionEnd)
    (hce : Entry.log { type := .compensateEnd, subTxID := l0.subTxID } ∈
      w.store s.logID)
    (hnf : ∀ op, w.faults op = false)
    (hrec : ∀ e ∈ w.store s.logID, ∃ l : Log, e = Entry.log l)
    (hcomp : ∀ l : Log, Entry.log l ∈ w.store s.logID → l.type = .actionEnd →
      ∃ d, s.sec.subTxDefinitions l.subTxID = some d ∧
        d.compensate Ctx.background (s.sec.unmarshalParam l.params) 0 = none) :
    s.Abort w = .ok ({ s with abort := true },
      { w with
        store := fun k =>
          if k = s.logID
          then w.store k ++ Entry.log { type := .sagaAbort } ::
            (actionEnds (w.store s.logID)).reverse.flatMap compRecords
          else w.store k,
        trace := w.trace ++
          (actionEnds (w.store s.logID)).reverse.map (compInv s.sec) }) ∧
    compInv s.sec l0 ∈ (actionEnds (w.store s.logID)).reverse.map (compInv s.sec) := by
  refine ⟨abort_reverse_ok s w hnf hrec hcomp, ?_⟩
  refine List.mem_map_of_mem _ ?_
  rw [List.mem_reverse]
  unfold actionEnds
  refine List.mem_filterMap.mpr ⟨Entry.log l0, hl0, ?_⟩
  simp [hl0T]

/-- C10 witness: a second Abort over the concrete post-abort snapshot C10log,
whose ActionEnd for "out" already has a CompensateEnd, compensates "out"
again. -/
theorem C10_witness :
    C10saga.Abort C10W = .ok ({ C10saga with abort := true },
      { C10W with
        store := fun k =>
          if k = C10saga.logID
          then C10W.store k ++ Entry.log { type := .sagaAbort } ::
            (actionEnds (C10W.store C10saga.logID)).reverse.flatMap compRecords
          else C10W.store k,
        trace := C10W.trace ++
          (actionEnds (C10W.store C10saga.logID)).reverse.map (compInv C10saga.sec) }) ∧
    compInv C10saga.sec C10ae ∈
      (actionEnds (C10W.store C10saga.logID)).reverse.map (compInv C10saga.sec) :=
  C10_abort_not_idempotent C10saga C10W C10ae rfl (by decide) rfl (by decide)
    (fun _ => rfl)
    (by
      intro e he
      have hst : C10W.store C10saga.logID = C10log := rfl
      rw [hst] at he
      fin_cases he <;> exact ⟨_, rfl⟩)
    (by
      intro l hl hT
      have hst : C10W.store C10saga.logID = C10log := rfl
      rw [hst] at hl
      simp only [C10log, List.mem_cons, List.not_mem_nil, or_false] at hl
      rcases hl with h | h | h | h | h | h | h <;> injection h with h2 <;>
        subst h2 <;>
        first
        | exact absurd hT (by decide)
        | exact ⟨outDef, rfl, rfl⟩)

/-- C5: in any successful return of compensate the trace gains at most
maxTry = 10 compensation attempts, every one invoked with the fresh
non-cancellable background context (never the saga's caller context); and
when all 10 attempts return an error, the returned value is a wrapping error
built from the last attempt's error. -/
theorem C5_compensation_retry_policy (s : Saga V) (tlog : Log) (w : World V)
    (d : subTxDefinition V) (res : Option GoError) (w' : World V)
    (errAt : Nat → GoError)
    (hd : s.sec.subTxDefinitions tlog.subTxID = some d)
    (hres : s.compensate tlog w = .ok (res, w')) :
    (∃ tr : List (Invocation V), w'.trace = w.trace ++ tr ∧ tr.length ≤ maxTry ∧
      ∀ inv ∈ tr, inv.kind = InvKind.compensation ∧ inv.ctx = Ctx.background) ∧
    ((∀ i, i < maxTry →
        d.compensate Ctx.background (s.sec.unmarshalParam tlog.params) i =
          some (errAt i)) →
      res = some ("max try compensate: " ++ errAt 9)) := by
  constructor
  · obtain ⟨tr, h1, h2, h3⟩ := compensate_trace_bound s tlog w res w' hres
    exact ⟨tr, h1, h2, fun inv hi => ⟨(h3 inv hi).1, (h3 inv hi).2.1⟩⟩
  · intro hfail
    by_cases hb : w.faults (.append s.logID
        (.log { type := .compensateStart, subTxID := tlog.subTxID })) = true
    · have hpanic : s.compensate tlog w =
          .error ("compensate AppendLog: " ++ "storage error") := by
        unfold Saga.compensate World.appendLog
        rw [hb]
        simp
      rw [hpanic] at hres
      cases hres
    · have hb' : w.faults (.append s.logID
          (.log { type := .compensateStart, subTxID := tlog.subTxID })) = false := by
        simpa using hb
      have heq := compensate_all_fail s tlog w d errAt hd hb' hfail
      rw [heq] at hres
      exact ((Prod.mk.inj (Except.ok.inj hres)).1).symm

/-- C5 witness: the concrete always-failing compensation of aeLog makes ten
background-context attempts and returns the wrapping error. -/
theorem C5_witness :
    (∃ tr : List (Invocation String), compFailW.trace = W0.trace ++ tr ∧
      tr.length ≤ maxTry ∧
      ∀ inv ∈ tr, inv.kind = InvKind.compensation ∧ inv.ctx = Ctx.background) ∧
    ((∀ i, i < maxTry →
        badCompDef.compensate Ctx.background
          (scanSaga.sec.unmarshalParam aeLog.params) i = some "boom") →
      (some "max try compensate: boom" : Option GoError) =
        some ("max try compensate: " ++ "boom")) :=
  C5_compensation_retry_policy scanSaga aeLog W0 badCompDef
    (some "max try compensate: boom") compFailW (fun _ => "boom") rfl rfl

/-- C6: ExecSub appends the ActionStart record carrying no params and, after
the action succeeds, the ActionEnd record carrying the marshalled args; and
appending those two records preserves the invariant that params are present
on ActionEnd records only. -/
theorem C6_params_only_on_actionEnd (s : Saga V) (txid : String) (args : List V)
    (w : World V) (d : subTxDefinition V)
    (habort : s.abort = false)
    (hd : s.sec.subTxDefinitions txid = some d)
    (ha : d.action s.context args = none)
    (hnf1 : w.faults
      (.append s.logID (.log { type := .actionStart, subTxID := txid })) = false)
    (hnf2 : w.faults
      (.append s.logID
        (.log { type := .actionEnd, subTxID := txid,
                params := s.sec.marshalParam args })) = false)
    (hpo : paramsOnlyOnActionEnd (w.store s.logID)) :
    s.ExecSub txid args w = .ok (s,
      { w with
        store := fun k =>
          if k = s.logID
          then w.store k ++
            [.log { type := .actionStart, subTxID := txid },
             .log { type := .actionEnd, subTxID := txid,
                    params := s.sec.marshalParam args }]
          else w.store k,
        trace := w.trace ++
          [{ kind := .action, subTxID := txid, ctx := s.context,
             args := args, attempt := 0 }] }) ∧
    paramsOnlyOnActionEnd (w.store s.logID ++
      [.log { type := .actionStart, subTxID := txid },
       .log { type := .actionEnd, subTxID := txid,
              params := s.sec.marshalParam args }]) := by
  refine ⟨execSub_ok s txid args w d habort hd ha hnf1 hnf2, ?_⟩
  intro l hl hne
  rcases List.mem_append.mp hl with h | h
  · exact hpo l h hne
  · rcases List.mem_cons.mp h with h1 | h1
    · injection h1 with h2
      subst h2
      rfl
    · have h2 := List.mem_singleton.mp h1
      injection h2 with h3
      subst h3
      exact absurd rfl hne

/-- C6 witness: the forward step of "out" at the concrete saga C6saga: the
appended ActionStart carries no params and only the ActionEnd carries the
marshalled argument. -/
theorem C6_witness :
    (C6saga.ExecSub "out" ["A"] W0 = .ok (C6saga,
      { W0 with
        store := fun k =>
          if k = C6saga.logID
          then W0.store k ++
            [.log { type := .actionStart, subTxID := "out" },
             .log { type := .actionEnd, subTxID := "out",
                    params := C6saga.sec.marshalParam ["A"] }]
          else W0.store k,
        trace := W0.trace ++
          [{ kind := .action, subTxID := "out", ctx := C6saga.context,
             args := ["A"], attempt := 0 }] })) ∧
    paramsOnlyOnActionEnd (W0.store C6saga.logID ++
      [.log { type := .actionStart, subTxID := "out" },
       .log { type := .actionEnd, subTxID := "out",
              params := C6saga.sec.marshalParam ["A"] }]) :=
  C6_params_only_on_actionEnd C6saga "out" ["A"] W0 outDef rfl rfl rfl rfl rfl
    (fun _ hl _ => absurd hl (List.not_mem_nil _))

/-- C9: compensate appends the CompensateStart record before the first
attempt; a run that exhausts its retries leaves exactly that CompensateStart
and no CompensateEnd in the log, while a successful attempt appends the
matching CompensateEnd after it. -/
theorem C9_compensate_log_shape
    (s1 : Saga V) (t1 : Log) (w1 : World V) (d1 : subTxDefinition V)
    (errAt : Nat → GoError)
    (s2 : Saga V) (t2 : Log) (w2 : World V) (d2 : subTxDefinition V)
    (hd1 : s1.sec.subTxDefinitions t1.subTxID = some d1)
    (hnf1 : w1.faults
      (.append s1.logID
        (.log { type := .compensateStart, subTxID := t1.subTxID })) = false)
    (hf1 : ∀ i, i < maxTry →
      d1.compensate Ctx.background (s1.sec.unmarshalParam t1.params) i =
        some (errAt i))
    (hd2 : s2.sec.subTxDefinitions t2.subTxID = some d2)
    (hnf2 : ∀ op, w2.faults op = false)
    (h02 : d2.compensate Ctx.background (s2.sec.unmarshalParam t2.params) 0 = none) :
    s1.compensate t1 w1 = .ok (some ("max try compensate: " ++ errAt 9),
      { w1 with
        store := fun k =>
          if k = s1.logID
          then w1.store k ++
            [.log { type := .compensateStart, subTxID := t1.subTxID }]
          else w1.store k,
        trace := w1.trace ++
          attemptTrace t1.subTxID (s1.sec.unmarshalParam t1.params) maxTry 0 }) ∧
    s2.compensate t2 w2 = .ok (none,
      { w2 with
        store := fun k =>
          if k = s2.logID then w2.store k ++ compRecords t2 else w2.store k,
        trace := w2.trace ++ [compInv s2.sec t2] }) :=
  ⟨compensate_all_fail s1 t1 w1 d1 errAt hd1 hnf1 hf1,
   compensate_ok_first_try s2 t2 w2 d2 hd2 (hnf2 _) (hnf2 _) h02⟩

/-- C9 witness: the exhausted compensation of aeLog under badSEC leaves only
an unmatched CompensateStart; the successful one under testSEC leaves the
CompensateStart/CompensateEnd pair. -/
theorem C9_witness :
    scanSaga.compensate aeLog W0 = .ok (some ("max try compensate: " ++ "boom"),
      { W0 with
        store := fun k =>
          if k = scanSaga.logID
          then W0.store k ++
            [.log { type := .compensateStart, subTxID := aeLog.subTxID }]
          else W0.store k,
        trace := W0.trace ++
          attemptTrace aeLog.subTxID (scanSaga.sec.unmarshalParam aeLog.params)
            maxTry 0 }) ∧
    C3saga.compensate aeLog W0 = .ok (none,
      { W0 with
        store := fun k =>
          if k = C3saga.logID then W0.store k ++ compRecords aeLog
          else W0.store k,
        trace := W0.trace ++ [compInv C3saga.sec aeLog] }) :=
  C9_compensate_log_shape scanSaga aeLog W0 badCompDef (fun _ => "boom")
    C3saga aeLog W0 outDef rfl rfl (fun _ _ => rfl) rfl (fun _ => rfl) rfl

/-- C8 counterexample: with storage failing exactly the appends to the
compensate-failures index, the failure path of Abort performs such an append,
its error is ignored, and the whole saga run returns without a panic while
the failures index stays empty: not every storage failure is fatal. -/
theorem C8_counterexample :
    failuresFaults (.append "sagacompensate_failures" (.raw "sagatx-8")) = true ∧
    C8ok = true ∧
    C8latch = true ∧
    C8failures = [] :=
  ⟨rfl, rfl, rfl, rfl⟩

/-- C8 (amended): every failure of a storage operation on the saga's own log
panics — AppendLog in startSaga, ExecSub, EndSaga, Abort and compensate,
Lookup in Abort, Cleanup in EndSaga — with the one exception of the AppendLog
of the saga's logID to the compensate-failures index during the abort scan,
whose error is ignored: the scan returns normally with the index
unchanged. -/
theorem C8_storage_failures_panic
    (sA : Saga V) (wA : World V)
    (hA : wA.faults (.append sA.logID (.log { type := .sagaStart })) = true)
    (sB : Saga V) (txB : String) (argsB : List V) (wB : World V)
    (dB : subTxDefinition V)
    (hB1 : sB.abort = false)
    (hB2 : sB.sec.subTxDefinitions txB = some dB)
    (hB3 : wB.faults
      (.append sB.logID (.log { type := .actionStart, subTxID := txB })) = true)
    (sC : Saga V) (wC : World V)
    (hC : wC.faults (.append sC.logID (.log { type := .sagaEnd })) = true)
    (sD : Saga V) (wD : World V)
    (hD1 : wD.faults (.append sD.logID (.log { type := .sagaEnd })) = false)
    (hD2 : sD.compensateFail = false)
    (hD3 : wD.faults (.cleanup sD.logID) = true)
    (sE : Saga V) (wE : World V)
    (hE : wE.faults (.lookup sE.logID) = true)
    (sF : Saga V) (wF : World V)
    (hF1 : wF.faults (.lookup sF.logID) = false)
    (hF2 : wF.faults (.append sF.logID (.log { type := .sagaAbort })) = true)
    (sG : Saga V) (tG : Log) (wG : World V)
    (hG : wG.faults
      (.append sG.logID
        (.log { type := .compensateStart, subTxID := tG.subTxID })) = true)
    (sH : Saga V) (lH : Log) (restH : List Entry) (wH wH1 : World V)
    (cerrH : GoError)
    (hH1 : lH.type = .actionEnd)
    (hH2 : sH.compensate lH wH = .ok (some cerrH, wH1))
    (hH3 : wH1.faults
      (.append "sagacompensate_failures" (.raw sH.logID)) = true) :
    sA.startSaga wA = .error ("startSaga AppendLog: " ++ "storage error") ∧
    sB.ExecSub txB argsB wB = .error ("ExecSub AppendLog: " ++ "storage error") ∧
    sC.EndSaga wC = .error ("EndSaga AppendLog: " ++ "storage error") ∧
    sD.EndSaga wD = .error ("EndSaga Cleanup: " ++ "storage error") ∧
    sE.Abort wE = .error ("Abort Lookup: " ++ "storage error") ∧
    sF.Abort wF = .error ("Abort AppendLog: " ++ "storage error") ∧
    sG.compensate tG wG = .error ("compensate AppendLog: " ++ "storage error") ∧
    sH.abortScan (Entry.log lH :: restH) wH =
      .ok ({ sH with compensateFail := true }, wH1) := by
  refine ⟨?_, ?_, ?_, ?_, ?_, ?_, ?_, ?_⟩
  · simp [Saga.startSaga, World.appendLog, hA]
  · simp [Saga.ExecSub, hB1, hB2, World.appendLog, hB3]
  · simp [Saga.EndSaga, World.appendLog, hC]
  · have e1 := World.appendLog_of_nofault wD sD.logID
      (.log { type := .sagaEnd }) hD1
    simp [Saga.EndSaga, e1, hD2, World.cleanup, hD3]
  · simp [Saga.Abort, World.lookup, hE]
  · simp [Saga.Abort, World.lookup, hF1, World.appendLog, hF2]
  · simp [Saga.compensate, World.appendLog, hG]
  · simp [Saga.abortScan, hH1, hH2, World.appendLog, hH3]

/-- C8 witness: each fatal storage failure at a concrete input, and the
ignored failures-index append at a concrete input. -/
theorem C8_witness :
    C6saga.startSaga allFaultW =
      .error ("startSaga AppendLog: " ++ "storage error") ∧
    C6saga.ExecSub "out" ["A"] allFaultW =
      .error ("ExecSub AppendLog: " ++ "storage error") ∧
    C6saga.EndSaga allFaultW =
      .error ("EndSaga AppendLog: " ++ "storage error") ∧
    C6saga.EndSaga cleanupFaultW =
      .error ("EndSaga Cleanup: " ++ "storage error") ∧
    C6saga.Abort allFaultW = .error ("Abort Lookup: " ++ "storage error") ∧
    C6saga.Abort appendFaultW = .error ("Abort AppendLog: " ++ "storage error") ∧
    scanSaga.compensate aeLog allFaultW =
      .error ("compensate AppendLog: " ++ "storage error") ∧
    scanSaga.abortScan (Entry.log aeLog :: []) failuresFaultW =
      .ok ({ scanSaga with compensateFail := true }, compFailWF) :=
  C8_storage_failures_panic C6saga allFaultW rfl
    C6saga "out" ["A"] allFaultW outDef rfl rfl rfl
    C6saga allFaultW rfl
    C6saga cleanupFaultW rfl rfl rfl
    C6saga allFaultW rfl
    C6saga appendFaultW rfl rfl
    scanSaga aeLog allFaultW rfl
    scanSaga aeLog [] failuresFaultW compFailWF compFailErrF rfl rfl rfl

end GoSaga
